import Mathlib

/-!
# Verification of the Boxiii content-management backend

Shallow embedding of the data model and the operations of the Boxiii
repository (creators / content sets / content cards, two storage backends,
a JSON→relational migration engine and a coordinator), together with
theorems settling the specification claims about them.

Source files embedded here:
* `builder/backend/migrate_json_to_db.py` (platform conversion,
  content-set deduplication, card migration, the migration run),
* `builder/backend/json_data_impl.py` (file-backed backend),
* `builder/backend/postgresql_data_impl.py` (relational backend),
* `builder/backend/database/models.py` (row shapes, `to_dict`, cascade),
* `apps/builder/backend/data_interfaces.py` (`DataManager.export_all_to_json`),
* `apps/builder/backend/api_server.py` (`Platform` validation).

Machine integers are modelled as `Int` (PostgreSQL `Integer` columns),
strings as Lean `String`, Python dicts with a fixed field set as
structures whose optional fields are `Option`s, and JSON documents as an
explicit `JValue` tree.  Timestamps are opaque strings supplied as a
`now` parameter; random id generation (uuid suffixes) is modelled by the
caller supplying the id.
-/

namespace Boxiii

/-- A `{platform, handle}` entry of a creator's `platforms` array
(`database/models.py` JSONB column, `api_server.py` `Platform` model). -/
structure PlatformEntry where
  platform : String
  handle : String
  deriving DecidableEq, Repr

/-- A creator row, after `database/models.py` `Creator`: business columns
plus the two timestamp columns.  (`platforms` is the JSONB array of
platform/handle pairs; `social_links` a string-to-string map kept in
insertion order.) -/
structure Creator where
  creator_id : String
  display_name : String
  platforms : List PlatformEntry
  avatar_url : Option String
  banner_url : Option String
  description : Option String
  categories : List String
  follower_count : Option Int
  verified : Bool
  social_links : List (String × String)
  expertise_areas : List String
  content_style : String
  created_at : String
  updated_at : String
  deriving DecidableEq, Repr

/-- A content-set row (`database/models.py` `ContentSet`): the key columns
the claims are about (`set_id` primary key, `creator_id` foreign key,
`title`, `category`, and the derived `card_count` integer). -/
structure SetRow where
  set_id : String
  creator_id : String
  title : String
  category : String
  card_count : Int
  deriving DecidableEq, Repr

/-- A content-card row (`database/models.py` `ContentCard`): primary key,
the two foreign keys, required text fields and the non-nullable
`order_index` integer. -/
structure CardRow where
  card_id : String
  set_id : String
  creator_id : String
  title : String
  summary : String
  order_index : Int
  deriving DecidableEq, Repr

/-- A card as stored by the file-backed backend
(`json_data_impl.py` `JSONContentData`): a JSON dict, so `summary` and
`order_index` may simply be absent. -/
structure JCard where
  card_id : String
  set_id : String
  creator_id : String
  title : String
  summary : Option String
  order_index : Option Int
  deriving DecidableEq, Repr

/-- The relational store: one table per entity
(`postgresql_data_impl.py` operates on these three tables). -/
structure PGState where
  creators : List Creator
  sets : List SetRow
  cards : List CardRow
  deriving DecidableEq, Repr

/-- The file-backed store: `creators.json`, `content_sets.json`,
`cards.json`, each one JSON array (`json_data_impl.py`). -/
structure JStore where
  creators : List Creator
  sets : List SetRow
  cards : List JCard
  deriving DecidableEq, Repr

/-! ## Migration engine (`migrate_json_to_db.py`) -/

/-- A legacy creator record as read from `creators.json` by the migration
script: the legacy single `platform`/`platform_handle` fields and the
`social_links` map next to the ordinary fields (all read with `.get`, so
optional). -/
structure LegacyCreator where
  creator_id : String
  display_name : String
  platform : Option String
  platform_handle : Option String
  social_links : List (String × String)
  description : Option String
  categories : List String
  follower_count : Option Int
  verified : Option Bool
  expertise_areas : List String
  content_style : Option String
  deriving DecidableEq, Repr

/-- A legacy content-set record from `content_sets.json`; `card_count` is
read with `.get('card_count', 0)` so it may be absent. -/
structure LegacySet where
  set_id : String
  creator_id : String
  title : String
  category : String
  card_count : Option Int
  deriving DecidableEq, Repr

/-- A legacy card record from `cards.json` (the migration indexes
`card_data['order_index']` directly, so it is required). -/
structure LegacyCard where
  card_id : String
  set_id : String
  creator_id : String
  title : String
  summary : String
  order_index : Int
  deriving DecidableEq, Repr

/-- The legacy JSON snapshot loaded by `load_json_data`. -/
structure LegacyData where
  creators : List LegacyCreator
  sets : List LegacySet
  cards : List LegacyCard
  deriving DecidableEq, Repr

/-! ### Python string primitives

The Python string operations used by the sources, modelled on the
character list of a `String` (Python strings are sequences of code
points). -/

/-- Python slicing `s[:n]`. -/
def strTake (s : String) (n : Nat) : String :=
  ⟨s.data.take n⟩

/-- Python `s.strip()`: remove leading and trailing whitespace. -/
def strTrim (s : String) : String :=
  ⟨(((s.data.dropWhile Char.isWhitespace).reverse).dropWhile
      Char.isWhitespace).reverse⟩

/-- Python `s.lower()`. -/
def strLower (s : String) : String :=
  ⟨s.data.map Char.toLower⟩

/-- Python `c in s` for a single character. -/
def strContains (s : String) (c : Char) : Bool :=
  s.data.any (fun ch => ch = c)

/-- Python `s.startswith(pat)`. -/
def strStartsWith (s pat : String) : Bool :=
  pat.data.isPrefixOf s.data

/-- Python slicing `s[n:]`. -/
def strDrop (s : String) (n : Nat) : String :=
  ⟨s.data.drop n⟩

/-- Python truthiness of an optional string (`if creator_data.get('platform')`):
present and non-empty. -/
def truthy : Option String → Bool
  | none => false
  | some s => s ≠ ""

/-- `handle.replace('@', '')`: Python `str.replace` with a single-character
pattern and empty replacement removes every occurrence of that character. -/
def removeAts (h : String) : String :=
  String.mk (h.data.filter (fun ch => ch ≠ '@'))

/-- `convert_creator_platforms` (`migrate_json_to_db.py` lines 47–67):
the legacy `platform`/`platform_handle` pair first (when both are truthy),
then one entry per `social_links` item whose handle is truthy and not
equal to the legacy `platform_handle`, with every `'@'` removed from the
migrated handle. -/
def convert_creator_platforms (c : LegacyCreator) : List PlatformEntry :=
  let base : List PlatformEntry :=
    if truthy c.platform ∧ truthy c.platform_handle then
      [⟨(c.platform).getD "", (c.platform_handle).getD ""⟩]
    else []
  c.social_links.foldl
    (fun acc ph =>
      if ph.2 ≠ "" ∧ c.platform_handle ≠ some ph.2 then
        acc ++ [⟨ph.1, removeAts ph.2⟩]
      else acc)
    base

/-- The deduplication grouping key
(`key = f"{creator_id}_{title_key}"` with `title_key = title[:50]`). -/
def dedupKey (s : LegacySet) : String :=
  s.creator_id ++ "_" ++ strTake s.title 50

/-- `content_set.get('card_count', 0)`. -/
def ccD (s : LegacySet) : Int :=
  s.card_count.getD 0

/-- The loop state of `deduplicate_sets`: the `seen_combinations` dict
(modelled as a map from key to its current winner) and the `unique_sets`
list. -/
structure DedupState where
  seen : String → Option LegacySet
  uniq : List LegacySet

/-- One iteration of the `deduplicate_sets` loop: an unseen key is
recorded; a seen key keeps the current winner unless the new set has
strictly more cards, in which case the old winner is filtered out of
`unique_sets` (by `set_id`) and the new set appended. -/
def dedupStep (st : DedupState) (s : LegacySet) : DedupState :=
  let key := dedupKey s
  match st.seen key with
  | none =>
      ⟨fun k => if k = key then some s else st.seen k, st.uniq ++ [s]⟩
  | some existing =>
      if ccD s > ccD existing then
        ⟨fun k => if k = key then some s else st.seen k,
         (st.uniq.filter (fun t => t.set_id ≠ existing.set_id)) ++ [s]⟩
      else st

/-- `deduplicate_sets` (`migrate_json_to_db.py` lines 69–96). -/
def deduplicate_sets (sets : List LegacySet) : List LegacySet :=
  (sets.foldl dedupStep ⟨fun _ => none, []⟩).uniq

/-- `existing_set_ids = {s['set_id'] for s in unique_sets}`. -/
def surviving_ids (sets : List LegacySet) : List String :=
  (deduplicate_sets sets).map (fun s => s.set_id)

/-- The card-migration filter of `migrate_data` (lines 176–201): a legacy
card is migrated iff its `set_id` is among the surviving sets' ids. -/
def migrate_cards (sets : List LegacySet) (cards : List LegacyCard) :
    List LegacyCard :=
  cards.filter (fun c => decide (c.set_id ∈ surviving_ids sets))

/-- Row conversion for migrated creators (`migrate_data` creator loop;
timestamps are server-side defaults, modelled as empty strings). -/
def migrateCreator (lc : LegacyCreator) : Creator where
  creator_id := lc.creator_id
  display_name := lc.display_name
  platforms := convert_creator_platforms lc
  avatar_url := none
  banner_url := none
  description := lc.description
  categories := lc.categories
  follower_count := lc.follower_count
  verified := lc.verified.getD false
  social_links := lc.social_links
  expertise_areas := lc.expertise_areas
  content_style := lc.content_style.getD "educational"
  created_at := ""
  updated_at := ""

/-- Row conversion for migrated content sets (`migrate_data` set loop). -/
def migrateSet (s : LegacySet) : SetRow where
  set_id := s.set_id
  creator_id := s.creator_id
  title := s.title
  category := s.category
  card_count := ccD s

/-- Row conversion for migrated cards (`migrate_data` card loop). -/
def migrateCard (c : LegacyCard) : CardRow where
  card_id := c.card_id
  set_id := c.set_id
  creator_id := c.creator_id
  title := c.title
  summary := c.summary
  order_index := c.order_index

/-- The `Clear existing data` step of `migrate_data` (lines 112–117):
`session.query(ContentCard).delete()`, then `ContentSet`, then `Creator`,
committed before anything is imported. -/
def clear_existing (db : PGState) : PGState :=
  { db with creators := [], sets := [], cards := [] }

/-- `migrate_data` (`migrate_json_to_db.py`): clear the target store, then
load converted creators, deduplicated sets and filtered cards, then
recompute every set's `card_count` from the migrated cards. -/
def migrate_data (db : PGState) (legacy : LegacyData) : PGState :=
  let db0 := clear_existing db
  let creators' := legacy.creators.map migrateCreator
  let uniq := deduplicate_sets legacy.sets
  let cards' := (migrate_cards legacy.sets legacy.cards).map migrateCard
  let sets' := (uniq.map migrateSet).map
    (fun s => { s with
      card_count := ((cards'.filter (fun c => c.set_id = s.set_id)).length : Int) })
  { db0 with creators := creators', sets := sets', cards := cards' }

/-! ## Relational backend (`postgresql_data_impl.py`) -/

/-- A card-create payload (dict handed to `create_card`): `card_id` is the
id after the uuid-generation step (modelled as supplied by the caller),
`summary` is read with `.get('summary', '')`, and `order_index` may be
absent. -/
structure CardPayload where
  card_id : String
  set_id : String
  creator_id : String
  title : String
  summary : Option String
  order_index : Option Int
  deriving DecidableEq, Repr

/-- `content_set.card_count += delta` applied to the `.first()` row with
the given `set_id` (later rows with the same id — impossible under the
primary key — are untouched), or no change when no row matches. -/
def bumpFirst : List SetRow → String → Int → List SetRow
  | [], _, _ => []
  | s :: rest, sid, d =>
      if s.set_id = sid then { s with card_count := s.card_count + d } :: rest
      else s :: bumpFirst rest sid d

/-- `PostgreSQLContentData.create_card` (lines 373–413): the omitted
`order_index` becomes `count(cards in the set) + 1`, the card row is
inserted and the owning set's `card_count` incremented, all committed as
one transaction; a primary-key or foreign-key violation makes the commit
fail and roll everything back (`none`). -/
def pg_create_card (st : PGState) (p : CardPayload) :
    Option (PGState × CardRow) :=
  let oi : Int :=
    match p.order_index with
    | some i => i
    | none => ((st.cards.filter (fun c => c.set_id = p.set_id)).length : Int) + 1
  let card : CardRow :=
    ⟨p.card_id, p.set_id, p.creator_id, p.title, p.summary.getD "", oi⟩
  if st.cards.any (fun c => c.card_id = p.card_id) then none
  else if st.sets.any (fun s => s.set_id = p.set_id) &&
          st.creators.any (fun c => c.creator_id = p.creator_id) then
    some ({ st with
             sets := bumpFirst st.sets p.set_id 1,
             cards := st.cards ++ [card] }, card)
  else none

/-- `PostgreSQLContentData.delete_card` (lines 458–478): the first row
with the id is deleted and its set's `card_count` decremented in the same
transaction; a missing card returns `false` with no change. -/
def pg_delete_card (st : PGState) (cid : String) : PGState × Bool :=
  match st.cards.find? (fun c => c.card_id = cid) with
  | none => (st, false)
  | some card =>
      ({ st with
          sets := bumpFirst st.sets card.set_id (-1),
          cards := st.cards.eraseP (fun c => c.card_id = cid) }, true)

/-- An interleaved card mutation against the relational backend. -/
inductive CardOp where
  | create (p : CardPayload)
  | del (card_id : String)
  deriving DecidableEq, Repr

/-- Apply one card mutation; a failed create (constraint violation) rolls
back and leaves the store unchanged. -/
def applyCardOp (st : PGState) : CardOp → PGState
  | .create p =>
      match pg_create_card st p with
      | some (st', _) => st'
      | none => st
  | .del cid => (pg_delete_card st cid).1

/-- Apply an interleaved sequence of card creates and deletes. -/
def applyCardOps (st : PGState) (ops : List CardOp) : PGState :=
  ops.foldl applyCardOp st

/-- The `card_count` column of the (first) set row with the given id. -/
def countField (st : PGState) (sid : String) : Option Int :=
  (st.sets.find? (fun s => s.set_id = sid)).map (fun s => s.card_count)

/-- Database well-formedness plus the derived-count invariant: set ids are
primary keys (no duplicates), card ids likewise, and every set's
`card_count` equals the number of card rows referencing it. -/
def CountInv (st : PGState) : Prop :=
  (st.sets.map (fun s => s.set_id)).Nodup ∧
  (st.cards.map (fun c => c.card_id)).Nodup ∧
  ∀ s ∈ st.sets,
    s.card_count = ((st.cards.filter (fun c => c.set_id = s.set_id)).length : Int)

/-! ## Partial updates (`update_creator` in both backends) -/

/-- A partial creator-update payload (the dict handed to `update_creator`;
the fields of the API's `CreatorUpdate` model plus an optional
`creator_id`, which the claim says must be ignored). -/
structure CreatorPatch where
  creator_id : Option String
  display_name : Option String
  platforms : Option (List PlatformEntry)
  description : Option (Option String)
  categories : Option (List String)
  follower_count : Option (Option Int)
  verified : Option Bool
  social_links : Option (List (String × String))
  expertise_areas : Option (List String)
  content_style : Option String
  deriving DecidableEq, Repr

/-- `PostgreSQLCreatorData._prepare_platforms`: trim and lowercase the
platform name, trim the handle, drop entries where either is empty. -/
def prepare_platforms (l : List PlatformEntry) : List PlatformEntry :=
  l.filterMap (fun p =>
    let name := strLower (strTrim p.platform)
    let h := strTrim p.handle
    if name ≠ "" ∧ h ≠ "" then some ⟨name, h⟩ else none)

/-- The dict overlay of `JSONCreatorData.update_creator` (lines 71–82):
`creators[i] = {**creator, **creator_data}` after the payload's
`updated_at` is forced to now and its `creator_id` forced back to the
path id. -/
def json_apply_update (c : Creator) (patch : CreatorPatch)
    (cid now : String) : Creator where
  creator_id := cid
  display_name := patch.display_name.getD c.display_name
  platforms := patch.platforms.getD c.platforms
  avatar_url := c.avatar_url
  banner_url := c.banner_url
  description := patch.description.getD c.description
  categories := patch.categories.getD c.categories
  follower_count := patch.follower_count.getD c.follower_count
  verified := patch.verified.getD c.verified
  social_links := patch.social_links.getD c.social_links
  expertise_areas := patch.expertise_areas.getD c.expertise_areas
  content_style := patch.content_style.getD c.content_style
  created_at := c.created_at
  updated_at := now

/-- The field loop of `PostgreSQLCreatorData.update_creator`
(lines 131–160): `platforms` goes through `_prepare_platforms`, every
other supplied attribute is set, `creator_id` is skipped, and the ORM
refreshes `updated_at` on commit. -/
def pg_apply_update (c : Creator) (patch : CreatorPatch)
    (now : String) : Creator where
  creator_id := c.creator_id
  display_name := patch.display_name.getD c.display_name
  platforms := (patch.platforms.map prepare_platforms).getD c.platforms
  avatar_url := c.avatar_url
  banner_url := c.banner_url
  description := patch.description.getD c.description
  categories := patch.categories.getD c.categories
  follower_count := patch.follower_count.getD c.follower_count
  verified := patch.verified.getD c.verified
  social_links := patch.social_links.getD c.social_links
  expertise_areas := patch.expertise_areas.getD c.expertise_areas
  content_style := patch.content_style.getD c.content_style
  created_at := c.created_at
  updated_at := now

/-- Replace the first creator whose id matches, returning the new list
and the new record; `none` models the `ValueError` raised when the id is
not found.  (Both backends locate the record by a scan / query on the
primary key.) -/
def updateFirstCreator (f : Creator → Creator) :
    List Creator → String → Option (List Creator × Creator)
  | [], _ => none
  | c :: rest, cid =>
      if c.creator_id = cid then some (f c :: rest, f c)
      else
        match updateFirstCreator f rest cid with
        | some (rest', r) => some (c :: rest', r)
        | none => none

/-- `JSONCreatorData.update_creator`. -/
def json_update_creator (creators : List Creator) (cid : String)
    (patch : CreatorPatch) (now : String) :
    Option (List Creator × Creator) :=
  updateFirstCreator (fun c => json_apply_update c patch cid now) creators cid

/-- `PostgreSQLCreatorData.update_creator`. -/
def pg_update_creator (creators : List Creator) (cid : String)
    (patch : CreatorPatch) (now : String) :
    Option (List Creator × Creator) :=
  updateFirstCreator (fun c => pg_apply_update c patch now) creators cid

/-! ## Creator deletion (`delete_creator` in both backends) -/

/-- `JSONCreatorData.delete_creator` (lines 84–93): pop the first creator
with the id out of `creators.json`; the set and card files are not
touched. -/
def json_delete_creator (st : JStore) (cid : String) : JStore × Bool :=
  if st.creators.any (fun c => c.creator_id = cid) then
    ({ st with creators := st.creators.eraseP (fun c => c.creator_id = cid) },
     true)
  else (st, false)

/-- `PostgreSQLCreatorData.delete_creator` together with the
`cascade="all, delete-orphan"` relationships of `database/models.py`
(lines 34–36): deleting a creator row also deletes every content set and
card row owned by it. -/
def pg_delete_creator (st : PGState) (cid : String) : PGState × Bool :=
  if st.creators.any (fun c => c.creator_id = cid) then
    (⟨st.creators.eraseP (fun c => c.creator_id = cid),
      st.sets.filter (fun s => s.creator_id ≠ cid),
      st.cards.filter (fun c => c.creator_id ≠ cid)⟩, true)
  else (st, false)

/-- `list_sets(creator_id=cid)` of either backend: filter by the foreign
key. -/
def pg_list_sets (st : PGState) (cid : String) : List SetRow :=
  st.sets.filter (fun s => s.creator_id = cid)

/-- `list_cards(creator_id=cid)` of the relational backend. -/
def pg_list_cards (st : PGState) (cid : String) : List CardRow :=
  st.cards.filter (fun c => c.creator_id = cid)

/-- `JSONContentSetData.list_sets(creator_id=cid)`. -/
def json_list_sets (st : JStore) (cid : String) : List SetRow :=
  st.sets.filter (fun s => s.creator_id = cid)

/-- `JSONContentData.list_cards(creator_id=cid)`. -/
def json_list_cards (st : JStore) (cid : String) : List JCard :=
  st.cards.filter (fun c => c.creator_id = cid)

/-- `JSONContentData.create_card` (lines 172–181): generate an id if
absent (the id is modelled as already present) and append the payload
dict to `cards.json` exactly as supplied — no `order_index` is assigned. -/
def json_create_card (cards : List JCard) (p : JCard) : List JCard × JCard :=
  (cards ++ [p], p)

/-! ## Platform validation (`apps/builder/backend/api_server.py`, `Platform`) -/

/-- `forbidden_chars` of `validate_handle_characters`. -/
def forbidden_chars : List Char :=
  [' ', '\t', '\n', '@', '#', '&', '?', '=', '+', '%']

/-- `valid_platforms` of `validate_supported_platform`. -/
def valid_platforms : List String :=
  ["youtube", "instagram", "tiktok", "twitter", "linkedin", "website",
   "facebook", "twitch"]

/-- `Platform.validate_handle_characters` (lines 37–59): reject an empty
or whitespace-only handle and any handle containing a forbidden
character; an accepted handle is stored stripped. -/
def validate_handle (v : String) : Option String :=
  if strTrim v = "" then none
  else if forbidden_chars.any (fun ch => strContains v ch) then none
  else some (strTrim v)

/-- `Platform.validate_supported_platform` (lines 61–69): lowercase and
strip the platform name, reject it unless it is in the fixed enum, store
the lowercased form. -/
def validate_platform_name (v : String) : Option String :=
  let vl := strTrim (strLower v)
  if vl ∈ valid_platforms then some vl else none

/-- Pydantic validation of one `Platform` entry: both field validators
must accept, and the stored entry carries their returned values. -/
def validatePlatformEntry (p h : String) : Option PlatformEntry :=
  match validate_platform_name p, validate_handle h with
  | some pl, some hd => some ⟨pl, hd⟩
  | _, _ => none

/-! ## JSON documents and export (`export_to_json`, `DataManager.export_all_to_json`) -/

/-- A JSON value (the documents produced by the export paths). -/
inductive JValue where
  | str (s : String)
  | jint (n : Int)
  | jbool (b : Bool)
  | jnull
  | arr (xs : List JValue)
  | obj (fields : List (String × JValue))

/-- An optional string rendered to JSON (`None` becomes `null`). -/
def optStrJ : Option String → JValue
  | none => .jnull
  | some s => .str s

/-- An optional integer rendered to JSON. -/
def optIntJ : Option Int → JValue
  | none => .jnull
  | some n => .jint n

/-- `Creator.to_dict` (`database/models.py` lines 38–54). -/
def creatorToDictJ (c : Creator) : JValue :=
  .obj [("creator_id", .str c.creator_id),
        ("display_name", .str c.display_name),
        ("platforms", .arr (c.platforms.map (fun p =>
           .obj [("platform", .str p.platform), ("handle", .str p.handle)]))),
        ("avatar_url", optStrJ c.avatar_url),
        ("banner_url", optStrJ c.banner_url),
        ("description", optStrJ c.description),
        ("categories", .arr (c.categories.map .str)),
        ("follower_count", optIntJ c.follower_count),
        ("verified", .jbool c.verified),
        ("social_links", .obj (c.social_links.map (fun kv => (kv.1, JValue.str kv.2)))),
        ("expertise_areas", .arr (c.expertise_areas.map .str)),
        ("content_style", .str c.content_style),
        ("created_at", .str c.created_at),
        ("updated_at", .str c.updated_at)]

/-- `ContentSet.to_dict`, restricted to the modelled columns. -/
def setToDictJ (s : SetRow) : JValue :=
  .obj [("set_id", .str s.set_id),
        ("creator_id", .str s.creator_id),
        ("title", .str s.title),
        ("category", .str s.category),
        ("card_count", .jint s.card_count)]

/-- `ContentCard.to_dict`, restricted to the modelled columns. -/
def cardToDictJ (c : CardRow) : JValue :=
  .obj [("card_id", .str c.card_id),
        ("set_id", .str c.set_id),
        ("creator_id", .str c.creator_id),
        ("title", .str c.title),
        ("summary", .str c.summary),
        ("order_index", .jint c.order_index)]

/-- `PostgreSQLCreatorData.export_to_json` (lines 177–194): the
`export_data` dict, which is both returned and dumped to the output
file. -/
def pg_export_creators_doc (creators : List Creator) (now : String) : JValue :=
  .obj [("creators", .arr (creators.map creatorToDictJ)),
        ("exported_at", .str now),
        ("total_count", .jint (creators.length : Int))]

/-- `PostgreSQLContentData.export_to_json`. -/
def pg_export_cards_doc (cards : List CardRow) (now : String) : JValue :=
  .obj [("content_cards", .arr (cards.map cardToDictJ)),
        ("exported_at", .str now),
        ("total_count", .jint (cards.length : Int))]

/-- `PostgreSQLContentSetData.export_to_json`. -/
def pg_export_sets_doc (sets : List SetRow) (now : String) : JValue :=
  .obj [("content_sets", .arr (sets.map setToDictJ)),
        ("exported_at", .str now),
        ("total_count", .jint (sets.length : Int))]

/-- `JSONCreatorData.export_to_json` (lines 95–106): the document written
to the output file is the bare array of stored records. -/
def json_export_creators_file (creators : List Creator) : JValue :=
  .arr (creators.map creatorToDictJ)

/-- `JSONCreatorData.export_to_json`: the returned summary dict. -/
def json_export_creators_ret (creators : List Creator) (now : String) : JValue :=
  .obj [("data", .arr (creators.map creatorToDictJ)),
        ("count", .jint (creators.length : Int)),
        ("exported_at", .str now)]

/-- `JSONContentData.export_to_json`: the returned summary dict. -/
def json_export_cards_ret (cards : List JCard) (now : String) : JValue :=
  .obj [("data", .arr (cards.map (fun c => JValue.str c.card_id))),
        ("count", .jint (cards.length : Int)),
        ("exported_at", .str now)]

/-- `JSONContentSetData.export_to_json`: the returned summary dict. -/
def json_export_sets_ret (sets : List SetRow) (now : String) : JValue :=
  .obj [("data", .arr (sets.map setToDictJ)),
        ("count", .jint (sets.length : Int)),
        ("exported_at", .str now)]

/-- First value for a key in a JSON object's field list. -/
def lookupJ : List (String × JValue) → String → Option JValue
  | [], _ => none
  | (k, v) :: rest, key => if k = key then some v else lookupJ rest key

/-- `result.get("data", [])` followed by `len(...)`: the list under the
`"data"` key of an object, or the empty list when the key (or the
object) is missing. -/
def jGetListD (j : JValue) (k : String) : List JValue :=
  match j with
  | .obj fs =>
      match lookupJ fs k with
      | some (.arr xs) => xs
      | _ => []
  | _ => []

/-- The file paths returned by `DataManager.export_all_to_json`
(`data_interfaces.py` lines 111–150); the directory is created if
absent before the four files are written into it. -/
def export_all_paths (dir : String) : List (String × String) :=
  [("creators", dir ++ "/creators.json"),
   ("cards", dir ++ "/cards.json"),
   ("sets", dir ++ "/content_sets.json"),
   ("metadata", dir ++ "/export_metadata.json")]

/-- The `export_metadata.json` document built by
`DataManager.export_all_to_json` from the three per-entity export return
values (the environment-introspection `data_interfaces` entry of type
names is omitted from the model). -/
def export_all_metadata (creatorRes cardsRes setsRes : JValue)
    (now : String) : JValue :=
  .obj [("export_timestamp", .str now),
        ("total_creators", .jint ((jGetListD creatorRes "data").length : Int)),
        ("total_cards", .jint ((jGetListD cardsRes "data").length : Int)),
        ("total_sets", .jint ((jGetListD setsRes "data").length : Int))]

/-- `DataManager.export_all_to_json` wired to the relational backends
(the production wiring of `apps/builder/backend/api_server.py`): the
returned path map together with the metadata document. -/
def pg_export_all (st : PGState) (dir now : String) :
    List (String × String) × JValue :=
  (export_all_paths dir,
   export_all_metadata (pg_export_creators_doc st.creators now)
     (pg_export_cards_doc st.cards now) (pg_export_sets_doc st.sets now) now)

/-- Structural equivalence of JSON documents up to reordering of object
fields: atoms must be equal, arrays must match pointwise, and an object's
field list may be permuted before matching key-for-key. -/
inductive JEquiv : JValue → JValue → Prop where
  | str (s : String) : JEquiv (.str s) (.str s)
  | jint (n : Int) : JEquiv (.jint n) (.jint n)
  | jbool (b : Bool) : JEquiv (.jbool b) (.jbool b)
  | jnull : JEquiv .jnull .jnull
  | arr (xs ys : List JValue) (hlen : xs.length = ys.length)
      (h : ∀ (i : Nat) (hx : i < xs.length) (hy : i < ys.length),
        JEquiv (xs.get ⟨i, hx⟩) (ys.get ⟨i, hy⟩)) :
      JEquiv (.arr xs) (.arr ys)
  | obj (fs gs gs' : List (String × JValue)) (hperm : gs.Perm gs')
      (hlen : fs.length = gs'.length)
      (hkeys : ∀ (i : Nat) (hf : i < fs.length) (hg : i < gs'.length),
        (fs.get ⟨i, hf⟩).1 = (gs'.get ⟨i, hg⟩).1)
      (hvals : ∀ (i : Nat) (hf : i < fs.length) (hg : i < gs'.length),
        JEquiv (fs.get ⟨i, hf⟩).2 (gs'.get ⟨i, hg⟩).2) :
      JEquiv (.obj fs) (.obj gs)

/-- The keys of a JSON object, in order (empty for non-objects). -/
def keysOf : JValue → List String
  | .obj fs => fs.map (fun kv => kv.1)
  | _ => []

/-! ## Specification-side definitions

Definitions in this section formalize the specification's wording, to be
compared with the definitions embedded from the source. -/

/-- The winner the specification describes for one deduplication group:
the first element of the group attaining the highest `card_count` (the
set with the highest count, keeping the first encountered on a tie). -/
def firstMax : List LegacySet → Option LegacySet
  | [] => none
  | s :: rest =>
      match firstMax rest with
      | none => some s
      | some w => some (if ccD w > ccD s then w else s)

/-- One update of a running winner by a later candidate: the candidate
replaces the winner only when it has strictly more cards. -/
def stepCombine (acc : Option LegacySet) (s : LegacySet) : Option LegacySet :=
  match acc with
  | none => some s
  | some w => some (if ccD s > ccD w then s else w)

/-- Stripping only a leading `'@'` from a handle, as the claim about
platform normalization words it. -/
def stripLeadingAt (h : String) : String :=
  if strStartsWith h "@" then strDrop h 1 else h

/-- The platform-normalization result exactly as the claim states it:
the legacy pair when both fields are present, then one entry per
`social_links` entry except those whose handle exactly equals the legacy
handle, with only a leading `'@'` stripped. -/
def specClaimConvert (c : LegacyCreator) : List PlatformEntry :=
  (match c.platform, c.platform_handle with
   | some p, some h => [⟨p, h⟩]
   | _, _ => []) ++
  c.social_links.filterMap (fun ph =>
    if c.platform_handle = some ph.2 then none
    else some ⟨ph.1, stripLeadingAt ph.2⟩)

/-- The amended description of platform normalization, structured as the
legacy pair (when both fields are truthy) followed by a filter-and-map
over the social links: entries with an empty handle or a handle equal to
the legacy handle are skipped, and every `'@'` (not only a leading one)
is removed. -/
def convert_platforms_spec (c : LegacyCreator) : List PlatformEntry :=
  (if truthy c.platform ∧ truthy c.platform_handle then
    [⟨(c.platform).getD "", (c.platform_handle).getD ""⟩]
  else []) ++
  c.social_links.filterMap (fun ph =>
    if ph.2 ≠ "" ∧ c.platform_handle ≠ some ph.2 then
      some ⟨ph.1, removeAts ph.2⟩
    else none)

/-- The invariant carried through the `deduplicate_sets` loop: every key
of `seen_combinations` holds the first-encountered maximal set of the
processed prefix's group, and `unique_sets` holds exactly the sets that
are the current winner of their own key. -/
def DedupInv (pre : List LegacySet) (st : DedupState) : Prop :=
  (∀ k, st.seen k = firstMax (pre.filter (fun t => dedupKey t = k))) ∧
  (∀ t, t ∈ st.uniq ↔ st.seen (dedupKey t) = some t)

/-! ## Concrete example inputs used by the counterexamples and witnesses -/

/-- A creator row used in concrete stores. -/
def mkCreator (cid name : String) : Creator where
  creator_id := cid
  display_name := name
  platforms := []
  avatar_url := none
  banner_url := none
  description := none
  categories := []
  follower_count := none
  verified := false
  social_links := []
  expertise_areas := []
  content_style := "educational"
  created_at := "t0"
  updated_at := "t0"

/-- C1 counterexample: creator `"a_x"`, title `"y"`. -/
def exC1s1 : LegacySet := ⟨"s1", "a_x", "y", "science", some 3⟩

/-- C1 counterexample: creator `"a"`, title `"x_y"` — a different
`(creator_id, title-prefix)` pair whose concatenated key collides with
`exC1s1`'s. -/
def exC1s2 : LegacySet := ⟨"s2", "a", "x_y", "science", some 7⟩

/-- C1 counterexample: a card of `exC1s1`. -/
def exC1card : LegacyCard := ⟨"c1", "s1", "a_x", "t", "s", 1⟩

/-- C1 witness: two sets of one creator with the same title, counts 3 and 7. -/
def exC1w1 : LegacySet := ⟨"t1", "ada", "Intro", "science", some 3⟩

/-- C1 witness: the higher-count duplicate. -/
def exC1w2 : LegacySet := ⟨"t2", "ada", "Intro", "science", some 7⟩

/-- C1 witness set list. -/
def exC1wsets : List LegacySet := [exC1w1, exC1w2]

/-- C1 witness: a card referencing the surviving duplicate. -/
def exC1wcard : LegacyCard := ⟨"k2", "t2", "ada", "q", "s", 1⟩

/-- C1 witness card list (one card per duplicate). -/
def exC1wcards : List LegacyCard := [⟨"k1", "t1", "ada", "q", "s", 1⟩, exC1wcard]

/-- C2 witness: a store with one creator and one empty set. -/
def exC2st : PGState := ⟨[mkCreator "c1" "Ada"], [⟨"s1", "c1", "Intro", "science", 0⟩], []⟩

/-- C2 witness: create two cards, then delete the first. -/
def exC2ops : List CardOp :=
  [.create ⟨"k1", "s1", "c1", "Q1", some "a", none⟩,
   .create ⟨"k2", "s1", "c1", "Q2", some "b", none⟩,
   .del "k1"]

/-- C2 witness: the set row after the three mutations. -/
def exC2final : SetRow := ⟨"s1", "c1", "Intro", "science", 1⟩

/-- C3 witness: the record before the update. -/
def exC3old : Creator := mkCreator "c1" "Ada"

/-- C3 witness: a partial payload supplying `display_name` and a
conflicting `creator_id`. -/
def exC3patch : CreatorPatch where
  creator_id := some "evil_id"
  display_name := some "Ada L."
  platforms := none
  description := none
  categories := none
  follower_count := none
  verified := none
  social_links := none
  expertise_areas := none
  content_style := none

/-- C3 witness: the record after the file-backed update. -/
def exC3jsonR : Creator := json_apply_update exC3old exC3patch "c1" "T1"

/-- C3 witness: the record after the relational update. -/
def exC3pgR : Creator := pg_apply_update exC3old exC3patch "T1"

/-- C4 store: one creator owning one set and one card. -/
def exC4store : JStore :=
  ⟨[mkCreator "ada" "Ada"], [⟨"set1", "ada", "Intro", "science", 1⟩],
   [⟨"card1", "set1", "ada", "Q1", some "s", some 1⟩]⟩

/-- C4 witness: the same data in the relational store. -/
def exC4pg : PGState :=
  ⟨[mkCreator "ada" "Ada"], [⟨"set1", "ada", "Intro", "science", 1⟩],
   [⟨"card1", "set1", "ada", "Q1", "s", 1⟩]⟩

/-- C6 counterexample: legacy creator with a social link whose handle
contains an interior `'@'`. -/
def exC6 : LegacyCreator where
  creator_id := "c1"
  display_name := "Ada"
  platform := some "youtube"
  platform_handle := some "adachannel"
  social_links := [("twitter", "a@b")]
  description := none
  categories := []
  follower_count := none
  verified := none
  expertise_areas := []
  content_style := none

/-- C7 counterexample/witness: a card payload with no `order_index` for
the file-backed backend. -/
def exC7card : JCard := ⟨"card_1", "s1", "c1", "Q1", some "s", none⟩

/-- C7 witness: a store whose set `"s1"` has no cards yet. -/
def exC7pg : PGState := ⟨[mkCreator "c1" "Ada"], [⟨"s1", "c1", "Intro", "science", 0⟩], []⟩

/-- C7 witness: the same payload for the relational backend. -/
def exC7payload : CardPayload := ⟨"card_1", "s1", "c1", "Q1", some "s", none⟩

/-- C7 witness: the card row the relational backend creates. -/
def exC7result : CardRow := ⟨"card_1", "s1", "c1", "Q1", "s", 1⟩

/-- C7 witness: the store after the relational create. -/
def exC7state : PGState :=
  ⟨[mkCreator "c1" "Ada"], [⟨"s1", "c1", "Intro", "science", 1⟩], [exC7result]⟩

/-- C9 failing input: a relational store holding exactly one creator. -/
def exC9pg : PGState := ⟨[mkCreator "ada" "Ada"], [], []⟩

/-! ## Helper lemmas -/

/-- The social-links fold of `convert_creator_platforms` is the
filter-and-map the amended claim describes. -/
theorem convert_fold_eq (c : LegacyCreator) :
    ∀ (links : List (String × String)) (acc : List PlatformEntry),
      links.foldl
        (fun acc ph =>
          if ph.2 ≠ "" ∧ c.platform_handle ≠ some ph.2 then
            acc ++ [⟨ph.1, removeAts ph.2⟩]
          else acc) acc
        = acc ++ links.filterMap (fun ph =>
            if ph.2 ≠ "" ∧ c.platform_handle ≠ some ph.2 then
              some ⟨ph.1, removeAts ph.2⟩
            else none)
  | [], acc => by simp
  | ph :: rest, acc => by
    by_cases h : ph.2 ≠ "" ∧ c.platform_handle ≠ some ph.2
    · simp only [List.foldl_cons, List.filterMap_cons, if_pos h,
        convert_fold_eq c rest, List.append_assoc, List.singleton_append]
    · simp only [List.foldl_cons, List.filterMap_cons, if_neg h,
        convert_fold_eq c rest]

/-- The record returned by an update is the patched first record whose
primary key matches the targeted id. -/
theorem updateFirstCreator_result (f : Creator → Creator) :
    ∀ (l : List Creator) (cid : String) (l' : List Creator) (r old : Creator),
      updateFirstCreator f l cid = some (l', r) →
      l.find? (fun c => c.creator_id = cid) = some old → r = f old := by
  intro l
  induction l with
  | nil => intro cid l' r old h hold; simp [updateFirstCreator] at h
  | cons c rest ih =>
    intro cid l' r old h hold
    by_cases hc : c.creator_id = cid
    · rw [updateFirstCreator, if_pos hc, Option.some_inj] at h
      rw [List.find?_cons_of_pos _ (by simpa using hc), Option.some_inj] at hold
      have h3 : f c = r := congrArg Prod.snd h
      rw [← h3, ← hold]
    · rw [updateFirstCreator, if_neg hc] at h
      rw [List.find?_cons_of_neg _ (by simpa using hc)] at hold
      cases hrec : updateFirstCreator f rest cid with
      | none => rw [hrec] at h; exact absurd h (by simp)
      | some pr =>
        obtain ⟨rest', r'⟩ := pr
        rw [hrec] at h
        have h2 : (c :: rest', r') = (l', r) := Option.some_inj.mp h
        have h3 : r' = r := congrArg Prod.snd h2
        rw [← h3]
        exact ih cid rest' r' old hrec hold

/-- `firstMax` is `none` exactly on the empty list. -/
theorem firstMax_eq_none (l : List LegacySet) : firstMax l = none ↔ l = [] := by
  cases l with
  | nil => simp [firstMax]
  | cons s rest =>
    simp only [firstMax]
    cases firstMax rest <;> simp

/-- The winner of a group is a member of the group. -/
theorem firstMax_mem (l : List LegacySet) (w : LegacySet)
    (h : firstMax l = some w) : w ∈ l := by
  induction l generalizing w with
  | nil => simp [firstMax] at h
  | cons s rest ih =>
    simp only [firstMax] at h
    cases hr : firstMax rest with
    | none =>
      rw [hr, Option.some_inj] at h
      subst h
      exact List.mem_cons_self s rest
    | some u =>
      rw [hr, Option.some_inj] at h
      by_cases hc : ccD u > ccD s
      · rw [if_pos hc] at h
        rw [h] at hr
        exact List.mem_cons_of_mem s (ih w hr)
      · rw [if_neg hc] at h
        subst h
        exact List.mem_cons_self s rest

/-- Appending one candidate to a group updates the winner by one
comparison step. -/
theorem firstMax_append (l : List LegacySet) (s : LegacySet) :
    firstMax (l ++ [s]) = stepCombine (firstMax l) s := by
  induction l with
  | nil => rfl
  | cons a rest ih =>
    rw [List.cons_append]
    simp only [firstMax, ih]
    cases hr : firstMax rest with
    | none =>
      have hnil : rest = [] := (firstMax_eq_none rest).mp hr
      subst hnil
      rfl
    | some w =>
      simp only [stepCombine]
      split_ifs <;> first | rfl | (exfalso; omega)

/-- A value stored in `seen_combinations` comes from the processed prefix
and carries the key it is stored under. -/
theorem seen_mem_of_inv {pre : List LegacySet} {st : DedupState}
    (h : DedupInv pre st) {k : String} {w : LegacySet}
    (hk : st.seen k = some w) : w ∈ pre ∧ dedupKey w = k := by
  have h1 := h.1 k
  rw [hk] at h1
  have hw := firstMax_mem _ w h1.symm
  have hmem := List.mem_filter.mp hw
  exact ⟨hmem.1, by simpa using hmem.2⟩

/-- One loop iteration of `deduplicate_sets` preserves the invariant
(under globally distinct `set_id`s, which make the `unique_sets`
replacement filter remove exactly the dethroned winner). -/
theorem dedupStep_inv (pre : List LegacySet) (st : DedupState) (s : LegacySet)
    (hnd : ((pre ++ [s]).map (fun t => t.set_id)).Nodup)
    (h : DedupInv pre st) : DedupInv (pre ++ [s]) (dedupStep st s) := by
  obtain ⟨h1, h2⟩ := h
  have hfilter_eq : ∀ k, dedupKey s ≠ k →
      (pre ++ [s]).filter (fun t => dedupKey t = k)
        = pre.filter (fun t => dedupKey t = k) := by
    intro k hk
    rw [List.filter_append]
    have hemp : [s].filter (fun t => dedupKey t = k) = [] := by
      simp [List.filter_cons, hk]
    rw [hemp, List.append_nil]
  have hfilter_key :
      (pre ++ [s]).filter (fun t => dedupKey t = dedupKey s)
        = pre.filter (fun t => dedupKey t = dedupKey s) ++ [s] := by
    rw [List.filter_append]
    congr 1
    simp [List.filter_cons]
  cases hseen : st.seen (dedupKey s) with
  | none =>
    have hseen' : ∀ k, (dedupStep st s).seen k =
        if k = dedupKey s then some s else st.seen k := by
      intro k
      simp only [dedupStep, hseen]
    have huniq' : (dedupStep st s).uniq = st.uniq ++ [s] := by
      simp only [dedupStep, hseen]
    refine ⟨?_, ?_⟩
    · intro k
      rw [hseen' k]
      by_cases hk : k = dedupKey s
      · subst hk
        rw [if_pos rfl, hfilter_key, firstMax_append,
          (h1 (dedupKey s)).symm.trans hseen]
        rfl
      · rw [if_neg hk, hfilter_eq k (Ne.symm hk)]
        exact h1 k
    · intro t
      rw [huniq', hseen' (dedupKey t)]
      by_cases hkt : dedupKey t = dedupKey s
      · rw [if_pos hkt]
        constructor
        · intro hmem
          rcases List.mem_append.mp hmem with hu | hs1
          · have ht := (h2 t).mp hu
            rw [hkt, hseen] at ht
            exact absurd ht (by simp)
          · rw [List.mem_singleton] at hs1
            rw [hs1]
        · intro heq
          rw [Option.some_inj] at heq
          rw [← heq]
          exact List.mem_append_right _ (List.mem_singleton_self s)
      · rw [if_neg hkt]
        constructor
        · intro hmem
          rcases List.mem_append.mp hmem with hu | hs1
          · exact (h2 t).mp hu
          · rw [List.mem_singleton] at hs1
            exact absurd (by rw [hs1]) hkt
        · intro heq
          exact List.mem_append_left _ ((h2 t).mpr heq)
  | some existing =>
    have hex := seen_mem_of_inv ⟨h1, h2⟩ hseen
    obtain ⟨hexmem, hexkey⟩ := hex
    have hinj := List.inj_on_of_nodup_map hnd
    by_cases hgt : ccD s > ccD existing
    · have hseen' : ∀ k, (dedupStep st s).seen k =
          if k = dedupKey s then some s else st.seen k := by
        intro k
        simp only [dedupStep, hseen, if_pos hgt]
      have huniq' : (dedupStep st s).uniq =
          (st.uniq.filter (fun t => t.set_id ≠ existing.set_id)) ++ [s] := by
        simp only [dedupStep, hseen, if_pos hgt]
      refine ⟨?_, ?_⟩
      · intro k
        rw [hseen' k]
        by_cases hk : k = dedupKey s
        · subst hk
          rw [if_pos rfl, hfilter_key, firstMax_append,
            (h1 (dedupKey s)).symm.trans hseen]
          simp only [stepCombine, if_pos hgt]
        · rw [if_neg hk, hfilter_eq k (Ne.symm hk)]
          exact h1 k
      · intro t
        rw [huniq', hseen' (dedupKey t)]
        by_cases hkt : dedupKey t = dedupKey s
        · rw [if_pos hkt]
          constructor
          · intro hmem
            rcases List.mem_append.mp hmem with hu | hs1
            · have hmf := List.mem_filter.mp hu
              have htseen := (h2 t).mp hmf.1
              rw [hkt, hseen, Option.some_inj] at htseen
              have hneq : t.set_id ≠ existing.set_id := by simpa using hmf.2
              exact absurd (by rw [htseen]) hneq
            · rw [List.mem_singleton] at hs1
              rw [hs1]
          · intro heq
            rw [Option.some_inj] at heq
            rw [← heq]
            exact List.mem_append_right _ (List.mem_singleton_self s)
        · rw [if_neg hkt]
          constructor
          · intro hmem
            rcases List.mem_append.mp hmem with hu | hs1
            · exact (h2 t).mp (List.mem_filter.mp hu).1
            · rw [List.mem_singleton] at hs1
              exact absurd (by rw [hs1]) hkt
          · intro heq
            have htu : t ∈ st.uniq := (h2 t).mpr heq
            refine List.mem_append_left _ (List.mem_filter.mpr ⟨htu, ?_⟩)
            simp only [ne_eq, decide_not, Bool.not_eq_eq_eq_not, Bool.not_true,
              decide_eq_false_iff_not]
            intro hcontra
            have htpre : t ∈ pre := (seen_mem_of_inv ⟨h1, h2⟩ heq).1
            have hteq : t = existing :=
              hinj (List.mem_append_left _ htpre)
                (List.mem_append_left _ hexmem) hcontra
            exact hkt (by rw [hteq, hexkey])
    · have hstep : dedupStep st s = st := by
        simp only [dedupStep, hseen, if_neg hgt]
      rw [hstep]
      refine ⟨?_, ?_⟩
      · intro k
        by_cases hk : k = dedupKey s
        · subst hk
          rw [hseen, hfilter_key, firstMax_append,
            (h1 (dedupKey s)).symm.trans hseen]
          simp only [stepCombine, if_neg hgt]
        · rw [hfilter_eq k (Ne.symm hk)]
          exact h1 k
      · exact h2

/-- The `deduplicate_sets` loop maintains the invariant over any suffix
of the input. -/
theorem dedup_loop (rest : List LegacySet) :
    ∀ (pre : List LegacySet) (st : DedupState),
      ((pre ++ rest).map (fun t => t.set_id)).Nodup → DedupInv pre st →
      DedupInv (pre ++ rest) (rest.foldl dedupStep st) := by
  induction rest with
  | nil =>
    intro pre st hnd h
    simpa using h
  | cons s rest ih =>
    intro pre st hnd h
    have hnd1 : ((pre ++ [s]).map (fun t => t.set_id)).Nodup := by
      refine List.Nodup.sublist (List.Sublist.map _ ?_) hnd
      exact (List.Sublist.cons₂ s (List.nil_sublist rest)).append_left pre
    have hmid := dedupStep_inv pre st s hnd1 h
    have heq : pre ++ s :: rest = (pre ++ [s]) ++ rest := by simp
    rw [heq] at hnd ⊢
    exact ih (pre ++ [s]) (dedupStep st s) hnd hmid

/-- The invariant holds after the whole `deduplicate_sets` run. -/
theorem dedup_inv (sets : List LegacySet)
    (hnd : (sets.map (fun t => t.set_id)).Nodup) :
    DedupInv sets (sets.foldl dedupStep ⟨fun _ => none, []⟩) := by
  have h0 : DedupInv [] ⟨fun _ => none, []⟩ := by
    refine ⟨fun k => rfl, fun t => ?_⟩
    simp
  have hfin := dedup_loop sets [] ⟨fun _ => none, []⟩ (by simpa using hnd) h0
  simpa using hfin

/-! ## Claim theorems -/

/-- C1 counterexample: the code groups by the concatenated string
`creator_id + "_" + title[:50]`, not by the pair.  Creator `"a_x"` with
title `"y"` and creator `"a"` with title `"x_y"` form two distinct
`(creator_id, title-prefix)` groups, so by the claim both sets (each the
sole — hence highest-count — member of its group) survive and the card
of the first is migrated; the code collapses them into one key, drops
the first set and excludes its card. -/
theorem C1_counterexample :
    (exC1s1.creator_id, strTake exC1s1.title 50)
      ≠ (exC1s2.creator_id, strTake exC1s2.title 50) ∧
    deduplicate_sets [exC1s1, exC1s2] = [exC1s2] ∧
    migrate_cards [exC1s1, exC1s2] [exC1card] = [] := by
  refine ⟨by decide, by decide, by decide⟩

/-- C1 amended: with pairwise-distinct `set_id`s, deduplication groups
sets by the concatenated key `creator_id + "_" + title[:50]`; a set
survives iff it is the first set of its key group attaining the highest
`card_count`, each non-empty key group keeps exactly one set, and a
legacy card is migrated iff its `set_id` equals the `set_id` of a
surviving set. -/
theorem C1_dedup_migration (sets : List LegacySet) (cards : List LegacyCard)
    (hnd : (sets.map (fun t => t.set_id)).Nodup) :
    (∀ s, s ∈ deduplicate_sets sets ↔
        firstMax (sets.filter (fun t => dedupKey t = dedupKey s)) = some s) ∧
    (∀ k, (∃ t ∈ sets, dedupKey t = k) →
        ∃! s, s ∈ deduplicate_sets sets ∧ dedupKey s = k) ∧
    (∀ c ∈ cards, (c ∈ migrate_cards sets cards ↔
        ∃ s ∈ deduplicate_sets sets, c.set_id = s.set_id)) := by
  obtain ⟨h1, h2⟩ := dedup_inv sets hnd
  have hmem : ∀ s, s ∈ deduplicate_sets sets ↔
      firstMax (sets.filter (fun t => dedupKey t = dedupKey s)) = some s := by
    intro s
    exact (h2 s).trans (by rw [h1 (dedupKey s)])
  refine ⟨hmem, ?_, ?_⟩
  · intro k hk
    obtain ⟨t, ht, htk⟩ := hk
    have htf : t ∈ sets.filter (fun u => dedupKey u = k) :=
      List.mem_filter.mpr ⟨ht, by simpa using htk⟩
    cases hfm : firstMax (sets.filter (fun u => dedupKey u = k)) with
    | none =>
      rw [firstMax_eq_none] at hfm
      rw [hfm] at htf
      exact absurd htf (List.not_mem_nil t)
    | some w =>
      have hwmem := firstMax_mem _ w hfm
      have hwk : dedupKey w = k := by
        simpa using (List.mem_filter.mp hwmem).2
      have hwin : w ∈ deduplicate_sets sets := by
        rw [hmem w, hwk]
        exact hfm
      refine ⟨w, ⟨hwin, hwk⟩, ?_⟩
      intro y hy
      obtain ⟨hyin, hyk⟩ := hy
      have hy2 := (hmem y).mp hyin
      rw [hyk, hfm, Option.some_inj] at hy2
      exact hy2.symm
  · intro c hc
    unfold migrate_cards
    constructor
    · intro hmemf
      have h3 := List.mem_filter.mp hmemf
      have h4 : c.set_id ∈ surviving_ids sets := by simpa using h3.2
      obtain ⟨s, hs, hsid⟩ := List.mem_map.mp h4
      exact ⟨s, hs, hsid.symm⟩
    · intro hex
      obtain ⟨s, hs, hsid⟩ := hex
      refine List.mem_filter.mpr ⟨hc, ?_⟩
      simp only [decide_eq_true_eq]
      rw [hsid]
      exact List.mem_map_of_mem _ hs

/-- C1 witness: the specification's own deduplication scenario — two
sets of one creator with the same title and counts 3 and 7; the
count-7 set is the group winner and survives, and its card is migrated. -/
theorem C1_witness :
    (exC1w2 ∈ deduplicate_sets exC1wsets ↔
      firstMax (exC1wsets.filter (fun t => dedupKey t = dedupKey exC1w2))
        = some exC1w2) ∧
    (exC1wcard ∈ migrate_cards exC1wsets exC1wcards ↔
      ∃ s ∈ deduplicate_sets exC1wsets, exC1wcard.set_id = s.set_id) :=
  ⟨(C1_dedup_migration exC1wsets exC1wcards (by decide)).1 exC1w2,
   (C1_dedup_migration exC1wsets exC1wcards (by decide)).2.2 exC1wcard
     (by decide)⟩

/-- C10: a migration run unconditionally clears every card, set and
creator row of the target store before importing, so the result never
depends on what was already there, and migrating an empty legacy
snapshot leaves the store empty. -/
theorem C10_migration_clears_target (db db' : PGState) (legacy : LegacyData) :
    migrate_data db legacy = migrate_data db' legacy ∧
    migrate_data db ⟨[], [], []⟩ = ⟨[], [], []⟩ :=
  ⟨rfl, rfl⟩

/-- C6 counterexample: for the social link `("twitter", "a@b")` the code
removes the interior `'@'` (`handle.replace('@','')`), whereas the claim
says only a leading `'@'` is stripped, so the two results differ. -/
theorem C6_counterexample :
    convert_creator_platforms exC6 ≠ specClaimConvert exC6 := by decide

/-- C6 amended: platform normalization emits the legacy pair (when both
legacy fields are present and non-empty) followed by one entry per
social link whose handle is non-empty and differs from the legacy
handle, with every `'@'` character removed from the migrated handle. -/
theorem C6_platform_normalization (c : LegacyCreator) :
    convert_creator_platforms c = convert_platforms_spec c := by
  unfold convert_creator_platforms convert_platforms_spec
  by_cases h : truthy c.platform ∧ truthy c.platform_handle
  · simp only [if_pos h, convert_fold_eq c c.social_links]
  · simp only [if_neg h, convert_fold_eq c c.social_links, List.nil_append]

/-- C7 counterexample: the file-backed backend stores a card created
without `order_index` as-is — the first card of an empty store does not
receive `order_index = 1`. -/
theorem C7_counterexample :
    (json_create_card [] exC7card).2.order_index ≠ some 1 := by decide

/-- C7 amended: when the payload omits `order_index`, the relational
backend assigns `count(existing cards in the set) + 1` to the created
card, while the file-backed backend stores the card with no
`order_index` at all. -/
theorem C7_order_index (st : PGState) (p : CardPayload)
    (cards : List JCard) (q : JCard)
    (hp : p.order_index = none) (hq : q.order_index = none) :
    (∀ st' c, pg_create_card st p = some (st', c) →
        c.order_index =
          ((st.cards.filter (fun k => k.set_id = p.set_id)).length : Int) + 1) ∧
    (json_create_card cards q).2.order_index = none := by
  constructor
  · intro st' c h
    simp only [pg_create_card, hp] at h
    by_cases hA : (st.cards.any fun k => k.card_id = p.card_id) = true
    · rw [if_pos hA] at h
      exact absurd h (by simp)
    · rw [if_neg hA] at h
      by_cases hB : ((st.sets.any fun s => s.set_id = p.set_id) &&
          (st.creators.any fun k => k.creator_id = p.creator_id)) = true
      · rw [if_pos hB, Option.some_inj] at h
        have hc : c = ⟨p.card_id, p.set_id, p.creator_id, p.title, p.summary.getD "",
            ((st.cards.filter fun k => k.set_id = p.set_id).length : Int) + 1⟩ :=
          (congrArg Prod.snd h).symm
        rw [hc]
      · rw [if_neg hB] at h
        exact absurd h (by simp)
  · simpa [json_create_card] using hq

/-- C7 witness: in a store whose target set is empty, the relational
backend assigns `order_index = 1`, and the file-backed backend stores
the card with no index. -/
theorem C7_witness :
    exC7result.order_index =
      ((exC7pg.cards.filter (fun k => k.set_id = exC7payload.set_id)).length : Int) + 1 ∧
    (json_create_card [] exC7card).2.order_index = none :=
  ⟨(C7_order_index exC7pg exC7payload [] exC7card rfl rfl).1 exC7state exC7result
     (by decide),
   (C7_order_index exC7pg exC7payload [] exC7card rfl rfl).2⟩

/-- C8: a platform entry whose handle is whitespace-only or contains a
forbidden character is rejected, a platform name outside the fixed enum
(after lowercasing and trimming) is rejected, and every accepted entry
stores its platform name in lowercase. -/
theorem C8_platform_validation (p h : String) :
    ((strTrim h = "" ∨ ∃ ch ∈ forbidden_chars, strContains h ch) →
        validatePlatformEntry p h = none) ∧
    (strTrim (strLower p) ∉ valid_platforms → validatePlatformEntry p h = none) ∧
    (∀ e, validatePlatformEntry p h = some e →
        e.platform ∈ valid_platforms ∧ strLower e.platform = e.platform) := by
  refine ⟨?_, ?_, ?_⟩
  · intro hbad
    have hh : validate_handle h = none := by
      unfold validate_handle
      rcases hbad with h1 | ⟨ch, hch, hcontain⟩
      · simp [h1]
      · have hany : forbidden_chars.any (fun c => strContains h c) = true :=
          List.any_eq_true.mpr ⟨ch, hch, hcontain⟩
        simp [hany]
    unfold validatePlatformEntry
    rw [hh]
    cases validate_platform_name p <;> rfl
  · intro hnp
    have hp : validate_platform_name p = none := by
      unfold validate_platform_name
      simp [hnp]
    unfold validatePlatformEntry
    rw [hp]
  · intro e he
    unfold validatePlatformEntry at he
    cases hp : validate_platform_name p with
    | none => rw [hp] at he; simp at he
    | some pl =>
      cases hh : validate_handle h with
      | none => rw [hp, hh] at he; simp at he
      | some hd =>
        rw [hp, hh, Option.some_inj] at he
        have hmem : pl ∈ valid_platforms := by
          by_cases hv : strTrim (strLower p) ∈ valid_platforms
          · have h2 : strTrim (strLower p) = pl := by
              simpa [validate_platform_name, hv] using hp
            rw [← h2]; exact hv
          · simp [validate_platform_name, hv] at hp
        have hplat : e.platform = pl := by rw [← he]
        rw [hplat]
        refine ⟨hmem, ?_⟩
        fin_cases hmem <;> decide

/-- C8 witness: a handle with a space is rejected, an unknown platform
is rejected, and the accepted entry `("YouTube", "goodhandle")` stores
the lowercase name `"youtube"`. -/
theorem C8_witness :
    validatePlatformEntry "youtube" "bad handle" = none ∧
    validatePlatformEntry "myspace" "goodhandle" = none ∧
    ("youtube" ∈ valid_platforms ∧ strLower "youtube" = "youtube") := by
  refine ⟨?_, ?_, ?_⟩
  · exact (C8_platform_validation "youtube" "bad handle").1
      (Or.inr ⟨' ', by decide, by decide⟩)
  · exact (C8_platform_validation "myspace" "goodhandle").2.1 (by decide)
  · exact (C8_platform_validation "YouTube" "goodhandle").2.2
      ⟨"youtube", "goodhandle"⟩ (by decide)

/-- C5 counterexample: even for identical (here empty) record sets, the
file written by the file-backed export is a JSON array while the
relational export writes an object, and no reordering of object fields
relates an array to an object. -/
theorem C5_counterexample :
    ¬ JEquiv (json_export_creators_file []) (pg_export_creators_doc [] "t") :=
  fun hcontra => nomatch hcontra

/-- C5 amended: the two exports are never equivalent modulo field
ordering — the file-backed backend writes the bare array of records and
returns a `data`/`count`/`exported_at` summary, while the relational
backend writes and returns an object keyed
`creators`/`exported_at`/`total_count`. -/
theorem C5_export_shapes (creators : List Creator) (now : String) :
    ¬ JEquiv (json_export_creators_file creators)
        (pg_export_creators_doc creators now) ∧
    json_export_creators_file creators = JValue.arr (creators.map creatorToDictJ) ∧
    keysOf (pg_export_creators_doc creators now) =
      ["creators", "exported_at", "total_count"] ∧
    keysOf (json_export_creators_ret creators now) =
      ["data", "count", "exported_at"] :=
  ⟨(fun hcontra => nomatch hcontra), rfl, rfl, rfl⟩

/-- C9: evaluation at the failing input — with the relational backend,
`DataManager.export_all_to_json` records `total_creators = 0` in the
metadata even though one creator record was exported, because it reads
the `"data"` key that the relational `export_to_json` return value does
not contain. -/
theorem C9_metadata_counts_zero :
    (pg_export_all exC9pg "out" "t").2 =
      JValue.obj [("export_timestamp", .str "t"), ("total_creators", .jint 0),
        ("total_cards", .jint 0), ("total_sets", .jint 0)] ∧
    (jGetListD (pg_export_creators_doc exC9pg.creators "t") "creators").length = 1 ∧
    (pg_export_all exC9pg "out" "t").1 = export_all_paths "out" := by
  refine ⟨?_, ?_, ?_⟩ <;> rfl

/-- C3: in both backends, updating an existing creator with a partial
payload changes exactly the supplied fields (in the relational backend
the supplied `platforms` value is stored through `_prepare_platforms`),
leaves every omitted field at its prior value, keeps `created_at`, and
keeps the primary key even when the payload supplies a different
`creator_id`. -/
theorem C3_partial_update (creators : List Creator) (cid now : String)
    (patch : CreatorPatch) (old : Creator)
    (hold : creators.find? (fun c => c.creator_id = cid) = some old) :
    (∀ l' r, json_update_creator creators cid patch now = some (l', r) →
        r.creator_id = old.creator_id ∧
        r.display_name = patch.display_name.getD old.display_name ∧
        r.platforms = patch.platforms.getD old.platforms ∧
        r.description = patch.description.getD old.description ∧
        r.categories = patch.categories.getD old.categories ∧
        r.follower_count = patch.follower_count.getD old.follower_count ∧
        r.verified = patch.verified.getD old.verified ∧
        r.social_links = patch.social_links.getD old.social_links ∧
        r.expertise_areas = patch.expertise_areas.getD old.expertise_areas ∧
        r.content_style = patch.content_style.getD old.content_style ∧
        r.created_at = old.created_at) ∧
    (∀ l' r, pg_update_creator creators cid patch now = some (l', r) →
        r.creator_id = old.creator_id ∧
        r.display_name = patch.display_name.getD old.display_name ∧
        r.platforms = (patch.platforms.map prepare_platforms).getD old.platforms ∧
        r.description = patch.description.getD old.description ∧
        r.categories = patch.categories.getD old.categories ∧
        r.follower_count = patch.follower_count.getD old.follower_count ∧
        r.verified = patch.verified.getD old.verified ∧
        r.social_links = patch.social_links.getD old.social_links ∧
        r.expertise_areas = patch.expertise_areas.getD old.expertise_areas ∧
        r.content_style = patch.content_style.getD old.content_style ∧
        r.created_at = old.created_at) := by
  have hid : old.creator_id = cid := by
    have := List.find?_some hold
    simpa using this
  constructor
  · intro l' r h
    have hr : r = json_apply_update old patch cid now :=
      updateFirstCreator_result _ creators cid l' r old h hold
    subst hr
    exact ⟨hid.symm, rfl, rfl, rfl, rfl, rfl, rfl, rfl, rfl, rfl, rfl⟩
  · intro l' r h
    have hr : r = pg_apply_update old patch now :=
      updateFirstCreator_result _ creators cid l' r old h hold
    subst hr
    exact ⟨rfl, rfl, rfl, rfl, rfl, rfl, rfl, rfl, rfl, rfl, rfl⟩

/-- C3 witness: a one-record store updated with a payload supplying
`display_name` and a conflicting `creator_id`; every omitted field keeps
its prior value and the id is unchanged, in both backends. -/
theorem C3_witness :
    (exC3jsonR.creator_id = exC3old.creator_id ∧
     exC3jsonR.display_name = exC3patch.display_name.getD exC3old.display_name ∧
     exC3jsonR.platforms = exC3patch.platforms.getD exC3old.platforms ∧
     exC3jsonR.description = exC3patch.description.getD exC3old.description ∧
     exC3jsonR.categories = exC3patch.categories.getD exC3old.categories ∧
     exC3jsonR.follower_count = exC3patch.follower_count.getD exC3old.follower_count ∧
     exC3jsonR.verified = exC3patch.verified.getD exC3old.verified ∧
     exC3jsonR.social_links = exC3patch.social_links.getD exC3old.social_links ∧
     exC3jsonR.expertise_areas = exC3patch.expertise_areas.getD exC3old.expertise_areas ∧
     exC3jsonR.content_style = exC3patch.content_style.getD exC3old.content_style ∧
     exC3jsonR.created_at = exC3old.created_at) ∧
    (exC3pgR.creator_id = exC3old.creator_id ∧
     exC3pgR.display_name = exC3patch.display_name.getD exC3old.display_name ∧
     exC3pgR.platforms = (exC3patch.platforms.map prepare_platforms).getD exC3old.platforms ∧
     exC3pgR.description = exC3patch.description.getD exC3old.description ∧
     exC3pgR.categories = exC3patch.categories.getD exC3old.categories ∧
     exC3pgR.follower_count = exC3patch.follower_count.getD exC3old.follower_count ∧
     exC3pgR.verified = exC3patch.verified.getD exC3old.verified ∧
     exC3pgR.social_links = exC3patch.social_links.getD exC3old.social_links ∧
     exC3pgR.expertise_areas = exC3patch.expertise_areas.getD exC3old.expertise_areas ∧
     exC3pgR.content_style = exC3patch.content_style.getD exC3old.content_style ∧
     exC3pgR.created_at = exC3old.created_at) := by
  have h := C3_partial_update [exC3old] "c1" "T1" exC3patch exC3old (by decide)
  exact ⟨h.1 [exC3jsonR] exC3jsonR rfl, h.2 [exC3pgR] exC3pgR rfl⟩

/-- C4 counterexample: in the file-backed backend, deleting creator
`"ada"` succeeds but the creator's content set and card survive, so the
subsequent filtered list calls are not empty. -/
theorem C4_counterexample :
    (json_delete_creator exC4store "ada").2 = true ∧
    json_list_sets (json_delete_creator exC4store "ada").1 "ada" ≠ [] ∧
    json_list_cards (json_delete_creator exC4store "ada").1 "ada" ≠ [] := by
  decide

/-- C4 amended: deleting an existing creator cascades in the relational
backend — the filtered set and card lists come back empty — while the
file-backed backend removes only the creator record, leaving its sets
and cards untouched. -/
theorem C4_cascade (pst : PGState) (jst : JStore) (cid : String)
    (hmem : (pst.creators.any fun c => c.creator_id = cid) = true) :
    (pg_delete_creator pst cid).2 = true ∧
    pg_list_sets (pg_delete_creator pst cid).1 cid = [] ∧
    pg_list_cards (pg_delete_creator pst cid).1 cid = [] ∧
    (json_delete_creator jst cid).1.sets = jst.sets ∧
    (json_delete_creator jst cid).1.cards = jst.cards := by
  refine ⟨?_, ?_, ?_, ?_, ?_⟩
  · simp [pg_delete_creator, hmem]
  · simp only [pg_delete_creator, if_pos hmem, pg_list_sets]
    rw [List.filter_filter]
    apply List.filter_eq_nil_iff.mpr
    intro s _
    simp only [Bool.and_eq_true, decide_eq_true_eq]
    intro hcontra
    exact absurd hcontra.2 (by simp [hcontra.1])
  · simp only [pg_delete_creator, if_pos hmem, pg_list_cards]
    rw [List.filter_filter]
    apply List.filter_eq_nil_iff.mpr
    intro s _
    simp only [Bool.and_eq_true, decide_eq_true_eq]
    intro hcontra
    exact absurd hcontra.2 (by simp [hcontra.1])
  · unfold json_delete_creator
    split <;> rfl
  · unfold json_delete_creator
    split <;> rfl

/-- Successful card creation: inversion of `pg_create_card`. -/
theorem pg_create_card_eq (st : PGState) (p : CardPayload) (st' : PGState)
    (c : CardRow) (h : pg_create_card st p = some (st', c)) :
    (st.cards.any fun k => k.card_id = p.card_id) = false ∧
    (st.sets.any fun s => s.set_id = p.set_id) = true ∧
    (st.creators.any fun k => k.creator_id = p.creator_id) = true ∧
    c.set_id = p.set_id ∧ c.card_id = p.card_id ∧
    st' = { st with sets := bumpFirst st.sets p.set_id 1,
                    cards := st.cards ++ [c] } := by
  simp only [pg_create_card] at h
  by_cases hA : (st.cards.any fun k => k.card_id = p.card_id) = true
  · rw [if_pos hA] at h
    exact absurd h (by simp)
  · rw [if_neg hA] at h
    by_cases hB : ((st.sets.any fun s => s.set_id = p.set_id) &&
        (st.creators.any fun k => k.creator_id = p.creator_id)) = true
    · rw [if_pos hB] at h
      have hpair := Option.some_inj.mp h
      have hst : st' = _ := (congrArg Prod.fst hpair).symm
      have hc : c = _ := (congrArg Prod.snd hpair).symm
      rw [Bool.and_eq_true] at hB
      obtain ⟨hB1, hB2⟩ := hB
      refine ⟨Bool.not_eq_true _ ▸ hA, hB1, hB2, by rw [hc], by rw [hc], ?_⟩
      rw [hst, hc]
    · rw [if_neg hB] at h
      exact absurd h (by simp)

/-- `bumpFirst` does not change the sequence of primary keys. -/
theorem bumpFirst_map_set_id (l : List SetRow) (sid : String) (d : Int) :
    (bumpFirst l sid d).map (fun s => s.set_id) = l.map (fun s => s.set_id) := by
  induction l with
  | nil => rfl
  | cons s rest ih =>
    by_cases h : s.set_id = sid
    · simp [bumpFirst, h]
    · simp [bumpFirst, h, ih]

/-- Looking the bumped set up by its key sees exactly the incremented
counter. -/
theorem find?_bumpFirst (l : List SetRow) (sid : String) (d : Int) :
    (bumpFirst l sid d).find? (fun s => s.set_id = sid) =
      (l.find? (fun s => s.set_id = sid)).map
        (fun s => { s with card_count := s.card_count + d }) := by
  induction l with
  | nil => rfl
  | cons s rest ih =>
    by_cases h : s.set_id = sid
    · simp only [bumpFirst, if_pos h]
      rw [List.find?_cons_of_pos _ (by simpa using h),
        List.find?_cons_of_pos _ (by simpa using h)]
      rfl
    · simp only [bumpFirst, if_neg h]
      rw [List.find?_cons_of_neg _ (by simpa using h),
        List.find?_cons_of_neg _ (by simpa using h), ih]

/-- Pointwise counting through `bumpFirst`: when the expected count
changes by `d` exactly for the bumped key and is unchanged elsewhere,
every row of the bumped list carries the expected count. -/
theorem bumpFirst_pointwise (sid : String) (d : Int) (F F' : String → Int) :
    ∀ (l : List SetRow),
      (l.map (fun s => s.set_id)).Nodup →
      (∀ s ∈ l, s.card_count = F s.set_id) →
      (∀ s ∈ l, s.set_id = sid → F' s.set_id = F s.set_id + d) →
      (∀ s ∈ l, s.set_id ≠ sid → F' s.set_id = F s.set_id) →
      ∀ t ∈ bumpFirst l sid d, t.card_count = F' t.set_id := by
  intro l
  induction l with
  | nil => intro _ _ _ _ t ht; simp [bumpFirst] at ht
  | cons a rest ih =>
    intro hnd hF hstep hsame t ht
    rw [List.map_cons, List.nodup_cons] at hnd
    obtain ⟨hna, hnd'⟩ := hnd
    by_cases h : a.set_id = sid
    · simp only [bumpFirst, if_pos h] at ht
      rcases List.mem_cons.mp ht with hEq | hRest
      · subst hEq
        show a.card_count + d = F' a.set_id
        rw [hstep a (List.mem_cons_self a rest) h,
          hF a (List.mem_cons_self a rest)]
      · have htid : t.set_id ≠ sid := by
          intro hcontra
          apply hna
          rw [h, ← hcontra]
          exact List.mem_map_of_mem _ hRest
        rw [hsame t (List.mem_cons_of_mem a hRest) htid]
        exact hF t (List.mem_cons_of_mem a hRest)
    · simp only [bumpFirst, if_neg h] at ht
      rcases List.mem_cons.mp ht with hEq | hRest
      · subst hEq
        rw [hsame t (List.mem_cons_self t rest) h]
        exact hF t (List.mem_cons_self t rest)
      · exact ih hnd' (fun s hs => hF s (List.mem_cons_of_mem a hs))
          (fun s hs => hstep s (List.mem_cons_of_mem a hs))
          (fun s hs => hsame s (List.mem_cons_of_mem a hs)) t hRest

/-- Removing the row found for a card id removes exactly one card, so the
per-set filter count drops by one for that card's set and is unchanged
for every other set. -/
theorem filter_length_eraseP (cards : List CardRow) (cid : String)
    (card : CardRow)
    (hf : cards.find? (fun c => c.card_id = cid) = some card) (sid : String) :
    (cards.filter (fun c => c.set_id = sid)).length
      = ((cards.eraseP (fun c => c.card_id = cid)).filter
          (fun c => c.set_id = sid)).length
        + (if card.set_id = sid then 1 else 0) := by
  induction cards with
  | nil => simp at hf
  | cons a rest ih =>
    by_cases h : a.card_id = cid
    · rw [List.find?_cons_of_pos _ (by simpa using h), Option.some_inj] at hf
      rw [List.eraseP_cons_of_pos (by simpa using h)]
      subst hf
      by_cases hs : a.set_id = sid <;> simp [List.filter_cons, hs]
    · rw [List.find?_cons_of_neg _ (by simpa using h)] at hf
      rw [List.eraseP_cons_of_neg (by simpa using h)]
      by_cases hs : a.set_id = sid <;>
        (simp [List.filter_cons, hs, ih hf]; try omega)

/-- A successful card creation preserves the count invariant. -/
theorem CountInv_create (st : PGState) (p : CardPayload) (st' : PGState)
    (c : CardRow) (hinv : CountInv st)
    (h : pg_create_card st p = some (st', c)) : CountInv st' := by
  obtain ⟨hA, _, _, hcset, hcid, hst⟩ := pg_create_card_eq st p st' c h
  obtain ⟨hndS, hndC, hcount⟩ := hinv
  subst hst
  refine ⟨?_, ?_, ?_⟩
  · show ((bumpFirst st.sets p.set_id 1).map (fun s => s.set_id)).Nodup
    rw [bumpFirst_map_set_id]
    exact hndS
  · show ((st.cards ++ [c]).map (fun k => k.card_id)).Nodup
    rw [List.map_append, List.nodup_append]
    refine ⟨hndC, by simp, ?_⟩
    intro x hx hy
    simp only [List.map_cons, List.map_nil, List.mem_singleton] at hy
    subst hy
    obtain ⟨k, hk, hkid⟩ := List.mem_map.mp hx
    have hA' : ∀ k ∈ st.cards, ¬(k.card_id = p.card_id) := by
      simpa using hA
    exact hA' k hk (by rw [hkid, hcid])
  · intro t ht
    refine bumpFirst_pointwise p.set_id 1
      (fun sid' => ((st.cards.filter (fun k => k.set_id = sid')).length : Int))
      (fun sid' => (((st.cards ++ [c]).filter
          (fun k => k.set_id = sid')).length : Int))
      st.sets hndS hcount ?_ ?_ t ht
    · intro s _ hsid
      show (((st.cards ++ [c]).filter (fun k => k.set_id = s.set_id)).length : Int)
        = ((st.cards.filter (fun k => k.set_id = s.set_id)).length : Int) + 1
      rw [List.filter_append]
      have hone : [c].filter (fun k => k.set_id = s.set_id) = [c] := by
        simp [List.filter_cons, hcset, hsid]
      rw [hone, List.length_append, List.length_singleton]
      push_cast
      ring
    · intro s _ hsid
      show (((st.cards ++ [c]).filter (fun k => k.set_id = s.set_id)).length : Int)
        = ((st.cards.filter (fun k => k.set_id = s.set_id)).length : Int)
      rw [List.filter_append]
      have hnone : [c].filter (fun k => k.set_id = s.set_id) = [] := by
        simp only [List.filter_cons, List.filter_nil]
        rw [if_neg]
        simp only [hcset, decide_eq_true_eq]
        exact fun hh => hsid hh.symm
      rw [hnone, List.append_nil]

/-- Deleting a card preserves the count invariant. -/
theorem CountInv_delete (st : PGState) (cid : String) (hinv : CountInv st) :
    CountInv (pg_delete_card st cid).1 := by
  obtain ⟨hndS, hndC, hcount⟩ := hinv
  unfold pg_delete_card
  cases hf : st.cards.find? (fun c => c.card_id = cid) with
  | none => exact ⟨hndS, hndC, hcount⟩
  | some card =>
    refine ⟨?_, ?_, ?_⟩
    · show ((bumpFirst st.sets card.set_id (-1)).map (fun s => s.set_id)).Nodup
      rw [bumpFirst_map_set_id]
      exact hndS
    · exact List.Nodup.sublist
        (List.Sublist.map _ (List.eraseP_sublist _)) hndC
    · intro t ht
      refine bumpFirst_pointwise card.set_id (-1)
        (fun sid' => ((st.cards.filter (fun k => k.set_id = sid')).length : Int))
        (fun sid' => (((st.cards.eraseP (fun k => k.card_id = cid)).filter
            (fun k => k.set_id = sid')).length : Int))
        st.sets hndS hcount ?_ ?_ t ht
      · intro s _ hsid
        show (((st.cards.eraseP (fun k => k.card_id = cid)).filter
            (fun k => k.set_id = s.set_id)).length : Int)
          = ((st.cards.filter (fun k => k.set_id = s.set_id)).length : Int) + (-1)
        have hlen := filter_length_eraseP st.cards cid card hf s.set_id
        rw [if_pos hsid.symm] at hlen
        omega
      · intro s _ hsid
        show (((st.cards.eraseP (fun k => k.card_id = cid)).filter
            (fun k => k.set_id = s.set_id)).length : Int)
          = ((st.cards.filter (fun k => k.set_id = s.set_id)).length : Int)
        have hlen := filter_length_eraseP st.cards cid card hf s.set_id
        rw [if_neg (fun hh => hsid hh.symm)] at hlen
        omega

/-- Every card mutation preserves the count invariant. -/
theorem CountInv_applyCardOp (st : PGState) (op : CardOp) (h : CountInv st) :
    CountInv (applyCardOp st op) := by
  cases op with
  | create p =>
    cases hc : pg_create_card st p with
    | none =>
      have he : applyCardOp st (CardOp.create p) = st := by
        simp only [applyCardOp, hc]
      rw [he]
      exact h
    | some r =>
      obtain ⟨st', c⟩ := r
      have he : applyCardOp st (CardOp.create p) = st' := by
        simp only [applyCardOp, hc]
      rw [he]
      exact CountInv_create st p st' c h hc
  | del cid => exact CountInv_delete st cid h

/-- Interleaved sequences of card creates and deletes preserve the count
invariant. -/
theorem CountInv_applyCardOps (ops : List CardOp) :
    ∀ (st : PGState), CountInv st → CountInv (applyCardOps st ops) := by
  induction ops with
  | nil => intro st h; exact h
  | cons op rest ih =>
    intro st h
    exact ih (applyCardOp st op) (CountInv_applyCardOp st op h)

/-- A successful create increments the target set's stored counter by
exactly one. -/
theorem create_count_delta (st : PGState) (p : CardPayload) (st' : PGState)
    (c : CardRow) (h : pg_create_card st p = some (st', c)) :
    countField st' p.set_id = (countField st p.set_id).map (fun n => n + 1) := by
  obtain ⟨_, _, _, _, _, hst⟩ := pg_create_card_eq st p st' c h
  subst hst
  unfold countField
  show ((bumpFirst st.sets p.set_id 1).find? (fun s => s.set_id = p.set_id)).map _ = _
  rw [find?_bumpFirst]
  cases st.sets.find? (fun s => s.set_id = p.set_id) <;> rfl

/-- A successful delete decrements the owning set's stored counter by
exactly one. -/
theorem delete_count_delta (st : PGState) (cid : String) (st' : PGState)
    (card : CardRow)
    (hf : st.cards.find? (fun c => c.card_id = cid) = some card)
    (hdel : pg_delete_card st cid = (st', true)) :
    countField st' card.set_id =
      (countField st card.set_id).map (fun n => n - 1) := by
  unfold pg_delete_card at hdel
  rw [hf] at hdel
  have hst : st' = { st with
                     sets := bumpFirst st.sets card.set_id (-1),
                     cards := st.cards.eraseP (fun c => c.card_id = cid) } :=
    (congrArg Prod.fst hdel).symm
  subst hst
  unfold countField
  show ((bumpFirst st.sets card.set_id (-1)).find?
      (fun s => s.set_id = card.set_id)).map _ = _
  rw [find?_bumpFirst]
  cases st.sets.find? (fun s => s.set_id = card.set_id) with
  | none => rfl
  | some s => simp [sub_eq_add_neg]

/-- C2: starting from a well-formed relational store, creating a card
belonging to a set increments that set's `card_count` by exactly 1 and
deleting a card decrements its set's counter by exactly 1 (each as one
atomic state transition, matching the single-transaction commit), and
after any interleaved sequence of card creates and deletes every set's
`card_count` equals the number of cards referencing it. -/
theorem C2_card_count_invariant (st : PGState) (hinv : CountInv st) :
    (∀ ops, ∀ s ∈ (applyCardOps st ops).sets,
        s.card_count =
          (((applyCardOps st ops).cards.filter
              (fun c => c.set_id = s.set_id)).length : Int)) ∧
    (∀ p st' c, pg_create_card st p = some (st', c) →
        countField st' p.set_id = (countField st p.set_id).map (fun n => n + 1)) ∧
    (∀ cid st' card, st.cards.find? (fun c => c.card_id = cid) = some card →
        pg_delete_card st cid = (st', true) →
        countField st' card.set_id =
          (countField st card.set_id).map (fun n => n - 1)) := by
  refine ⟨?_, ?_, ?_⟩
  · intro ops s hs
    exact (CountInv_applyCardOps ops st hinv).2.2 s hs
  · intro p st' c h
    exact create_count_delta st p st' c h
  · intro cid st' card hf hdel
    exact delete_count_delta st cid st' card hf hdel

/-- C2 witness: a store with one empty set; after creating two cards and
deleting one, the stored `card_count` is 1 and equals the number of
referencing cards. -/
theorem C2_witness :
    CountInv exC2st ∧
    exC2final ∈ (applyCardOps exC2st exC2ops).sets ∧
    exC2final.card_count =
      (((applyCardOps exC2st exC2ops).cards.filter
          (fun c => c.set_id = exC2final.set_id)).length : Int) := by
  have hinv : CountInv exC2st := by
    refine ⟨by decide, by decide, by decide⟩
  exact ⟨hinv, by decide,
    (C2_card_count_invariant exC2st hinv).1 exC2ops exC2final (by decide)⟩

/-- C4 witness: concrete stores holding one creator with one set and one
card; the relational delete cascades and the file-backed delete keeps the
set and card files unchanged. -/
theorem C4_witness :
    (pg_delete_creator exC4pg "ada").2 = true ∧
    pg_list_sets (pg_delete_creator exC4pg "ada").1 "ada" = [] ∧
    pg_list_cards (pg_delete_creator exC4pg "ada").1 "ada" = [] ∧
    (json_delete_creator exC4store "ada").1.sets = exC4store.sets ∧
    (json_delete_creator exC4store "ada").1.cards = exC4store.cards :=
  C4_cascade exC4pg exC4store "ada" (by decide)

end Boxiii
